import Mathlib

/-
Verification of the tileset loading pipeline in `src/plugin/loader.rs`
of the `bevy_tileset` repository.

The file shallowly embeds the two systems of that module —
`on_load_tileset_event` / `load_tiles` (the ingestion step) and
`create_tileset` (the build step) — together with the mutable state they
act on: the `TilesetHandlesMap` registry (a map from tileset name to a
`TilesetGenerationRequest`), the `Tilesets` store and the event stream.

External collaborators that are not part of `loader.rs` (the
`TilesetHandles` accumulator from `crate::handles`, the `Tilesets`
resource, the `TilesetBuilder`, the asset server and the filesystem) are
modelled from the specification, as marked on each definition.
-/

namespace BevyTileset

/-- Modelled from the spec: a parsed Tile Definition record
`{ logical_id, texture_file_reference }` (the `TileDef` type parsed by the
external `ron` parser collaborator; its concrete fields live outside
`loader.rs`). -/
structure TileDef where
  logical_id : Nat
  texture_file : String
deriving DecidableEq, Repr

/-- Modelled from the spec: the external parser reports errors as
`ParseError { code, position }`; the source reads `err.code` and
`err.position` from `ron::de::SpannedError`. Codes are abstracted as
naturals, positions as line/column pairs. -/
structure ParseError where
  code : Nat
  position : Nat × Nat
deriving DecidableEq, Repr

/-- Outcome of parsing the bytes of one candidate config file
(`ron::de::from_bytes::<TileDef>` in the source, an external
collaborator: `bytes -> Result<TileDef, ParseError>`). -/
inductive ParseOutcome where
  | ok (td : TileDef)
  | fail (e : ParseError)
deriving DecidableEq, Repr

/-- One entry of a listed directory: its path, its extension (as
`file.path().extension()` would report it, `none` when absent), and the
result of parsing its bytes with the external parser. -/
structure FsFile where
  path : String
  ext : Option String
  parsed : ParseOutcome
deriving DecidableEq, Repr

/-- The filesystem collaborator: maps a tile-config directory name to its
listing, or `none` when `std::fs::read_dir` fails (missing/unreadable
directory — the `panic!` branch of `load_tiles`). -/
abbrev FileSys := String → Option (List FsFile)

/-- The asset-server readiness oracle: for each texture load path, whether
the backing load has reached its terminal successful state. -/
abbrev Server := String → Bool

/-- A diagnostic reported for a config file that failed to parse: the
source logs the file path, the error code and the error position
(`warn!("Failed to load tile: {:?} ({:?} @ {:?})", path, err.code,
err.position)`). -/
structure Diag where
  path : String
  code : Nat
  position : Nat × Nat
deriving DecidableEq, Repr

/-- Modelled from the spec: the Pending Handle Set (`TilesetHandles` from
`crate::handles`, outside `src/`): an ordered collection of
`(texture handle, tile definition)` pairs plus the `is_dirty` flag.
A handle is identified by its load path `texture_dir + texture_file`.
Default state: no handles, not dirty. -/
structure TilesetHandles where
  handles : List (String × TileDef) := []
  is_dirty : Bool := false
deriving DecidableEq, Repr

/-- Modelled from the spec: `add(tile_definition, texture_dir)` issues an
async texture load keyed by `texture_dir + texture_file_reference` and
appends `(handle, tile_definition)` to the ordered collection; it does not
itself set the dirty flag. -/
def TilesetHandles.add_tile (h : TilesetHandles) (td : TileDef)
    (texture_dir : String) : TilesetHandles :=
  { h with handles := h.handles ++ [(texture_dir ++ "/" ++ td.texture_file, td)] }

/-- Modelled from the spec: `len()` is the count of accumulated handles. -/
def TilesetHandles.len (h : TilesetHandles) : Nat :=
  h.handles.length

/-- Modelled from the spec: `is_loaded(loader)` is true iff every handle
of the set has reached a terminal successful state per the external
loader readiness query. -/
def TilesetHandles.is_loaded (h : TilesetHandles) (server : Server) : Bool :=
  h.handles.all (fun p => server p.1)

/-- One value of the registry: `TilesetGenerationRequest { handles,
max_columns }` (source lines 65-69). `Default` gives empty handles and
`max_columns = none`. -/
structure TilesetGenerationRequest where
  handles : TilesetHandles := {}
  max_columns : Option Nat := none
deriving DecidableEq, Repr

/-- The Request Registry: `TilesetHandlesMap(HashMap<String,
TilesetGenerationRequest>)`, embedded as an association list with the
map operations below preserving key uniqueness. -/
abbrev Registry := List (String × TilesetGenerationRequest)

/-- Lookup giving the stored request for a key, or the default request
when absent — the read half of `entry(k).or_insert_with(default)`. -/
def getOr : Registry → String → TilesetGenerationRequest
  | [], _ => {}
  | p :: rest, k => if p.1 = k then p.2 else getOr rest k

/-- Store a value under a key: replaces the first binding of the key, or
appends a fresh binding — the write-back half of the `entry` API. -/
def setKey : Registry → String → TilesetGenerationRequest → Registry
  | [], k, v => [(k, v)]
  | p :: rest, k, v => if p.1 = k then (k, v) :: rest else p :: setKey rest k v

/-- `TilesetDirs`: the pair of asset directories of one source
(source lines 50-60). -/
structure TilesetDirs where
  tile_directory : String
  texture_directory : String
deriving DecidableEq, Repr

/-- `TilesetLoadRequest`: name, directory pairs and the `max_columns`
layout hint (source lines 34-47). -/
structure TilesetLoadRequest where
  name : String
  dirs : List TilesetDirs
  max_columns : Option Nat
deriving DecidableEq, Repr

/-- The extension filter of `load_tiles` (source lines 251-256): keep a
directory entry iff `file.path().extension()` is present and equals
`"ron"`. -/
def configFiles (files : List FsFile) : List FsFile :=
  files.filter (fun f => f.ext = some "ron")

/-- The inner loop of `load_tiles` (source lines 259-275): for each config
file, parse it; on success `add_tile` the definition with the pair's
texture directory, on failure report a diagnostic carrying the file path,
error code and error position, and continue with the next file. -/
def processConfigFiles (texture_dir : String) :
    List FsFile → TilesetGenerationRequest → TilesetGenerationRequest × List Diag
  | [], req => (req, [])
  | f :: rest, req =>
    match f.parsed with
    | ParseOutcome.ok td =>
      processConfigFiles texture_dir rest
        { req with handles := req.handles.add_tile td texture_dir }
    | ParseOutcome.fail e =>
      let r := processConfigFiles texture_dir rest req
      (r.1, ⟨f.path, e.code, e.position⟩ :: r.2)

/-- The outer loop of `load_tiles` over the request's directory pairs
(source lines 242-279). For each pair, `read_dir` the tile directory:
on failure the source panics (embedded as stopping with the failing
directory name, all mutations made so far standing); on success process
its `ron` files and then set `is_dirty := true` for this pair.
Returns the request state, the accumulated diagnostics, and the name of
the directory the pass aborted on, if any. -/
def processDirs (fs : FileSys) :
    List TilesetDirs → TilesetGenerationRequest →
    TilesetGenerationRequest × List Diag × Option String
  | [], req => (req, [], none)
  | d :: rest, req =>
    match fs d.tile_directory with
    | none => (req, [], some d.tile_directory)
    | some files =>
      let pr := processConfigFiles d.texture_directory (configFiles files) req
      let r := processDirs fs rest
        { pr.1 with handles := { pr.1.handles with is_dirty := true } }
      (r.1, pr.2 ++ r.2.1, r.2.2)

/-- Result of one ingestion pass: the registry after the pass, the
diagnostics reported, and — when a tile directory could not be read — the
directory the pass panicked on. -/
structure LoadResult where
  registry : Registry
  diags : List Diag
  aborted : Option String
deriving DecidableEq, Repr

/-- `load_tiles` (source lines 225-280). The key is the request name, or
a freshly generated unique name when the request name is empty
(`get_unique_name`, a UUIDv4 from the external generator, passed in here
as the oracle value `fresh`). The entry is fetched or created
(`entry(..).or_insert_with(default)`), its `max_columns` is overwritten
with the request's value, and then every directory pair is processed in
order. -/
def load_tiles (fs : FileSys) (fresh : String) (loader : TilesetLoadRequest)
    (m : Registry) : LoadResult :=
  let tileset_name := if loader.name = "" then fresh else loader.name
  let req0 := getOr m tileset_name
  let req1 := { req0 with max_columns := loader.max_columns }
  let r := processDirs fs loader.dirs req1
  { registry := setKey m tileset_name r.1, diags := r.2.1, aborted := r.2.2 }

/-- Modelled from the spec: the external `Tilesets` store — a monotone
id counter (`next_id`) and the list of registered finished tilesets,
recorded as `(id, name)` pairs. -/
structure Tilesets where
  counter : Nat := 0
  registered : List (Nat × String) := []
deriving DecidableEq, Repr

/-- The outcome oracle for `TilesetBuilder::build` (external to
`loader.rs`): whether atlas construction succeeds for a given group name
and handle set. -/
abbrev BuildOracle := String → TilesetHandles → Bool

/-- The build-step state outside the registry: the `Tilesets` store and
the stream of `LoadedTileset` events written so far (the names carried by
the events, in emission order). -/
structure BuildState where
  tilesets : Tilesets := {}
  events : List String := []
deriving DecidableEq, Repr

/-- The body of the `retain` closure of `create_tileset` (source lines
196-222) for one registry entry: rule 1 `len == 0` discards; rule 2
`!is_dirty` discards; rule 3 `!is_loaded` keeps; otherwise a fresh id is
allocated, the builder runs, and on success the tileset is registered and
a `LoadedTileset(name)` event is sent — the entry is discarded either
way. Returns whether the entry is retained, and the updated state. -/
def create_tileset_entry (server : Server) (build : BuildOracle)
    (st : BuildState) (tileset_name : String)
    (tileset_request : TilesetGenerationRequest) : Bool × BuildState :=
  let tileset_handles := tileset_request.handles
  if tileset_handles.len = 0 then
    (false, st)
  else if !tileset_handles.is_dirty then
    (false, st)
  else if !tileset_handles.is_loaded server then
    (true, st)
  else
    let id := st.tilesets.counter
    let ts := { st.tilesets with counter := st.tilesets.counter + 1 }
    if build tileset_name tileset_handles then
      (false,
       { tilesets := { ts with registered := ts.registered ++ [(id, tileset_name)] },
         events := st.events ++ [tileset_name] })
    else
      (false, { st with tilesets := ts })

/-- `create_tileset` (source lines 189-223): one build-step tick —
`retain` over every entry of the registry, threading the `Tilesets` store
and the event writer through. Returns the retained registry and the final
state. -/
def create_tileset (server : Server) (build : BuildOracle) :
    Registry → BuildState → Registry × BuildState
  | [], st => ([], st)
  | (n, r) :: rest, st =>
    let e := create_tileset_entry server build st n r
    let t := create_tileset server build rest e.2
    (if e.1 then (n, r) :: t.1 else t.1, t.2)

/-- Whether a parse outcome is a success. -/
def ParseOutcome.isOk : ParseOutcome → Bool
  | ParseOutcome.ok _ => true
  | ParseOutcome.fail _ => false

/-- The diagnostic reported for one file, if any: parse failures yield a
diagnostic with the file path, error code and error position. -/
def diagOf (f : FsFile) : Option Diag :=
  match f.parsed with
  | ParseOutcome.ok _ => none
  | ParseOutcome.fail e => some ⟨f.path, e.code, e.position⟩

/-- Number of successfully parsed definitions one directory pair
contributes: the `ron`-filtered files of its listing that parse, or zero
when the directory is unreadable. -/
def dirParsedCount (fs : FileSys) (d : TilesetDirs) : Nat :=
  match fs d.tile_directory with
  | none => 0
  | some files => ((configFiles files).filter (fun f => f.parsed.isOk)).length

/-- A concrete one-file filesystem used to instantiate merge statements:
every directory lists one valid `ron` file. -/
def fsOneA : FileSys := fun _ =>
  some [{ path := "d1/a.ron", ext := some "ron",
          parsed := ParseOutcome.ok ⟨1, "a.png"⟩ }]

/-- A second concrete one-file filesystem. -/
def fsOneB : FileSys := fun _ =>
  some [{ path := "d2/b.ron", ext := some "ron",
          parsed := ParseOutcome.ok ⟨2, "b.png"⟩ }]

/-- A concrete named load request over the first filesystem. -/
def reqGA : TilesetLoadRequest :=
  { name := "g", dirs := [⟨"d1", "t1"⟩], max_columns := none }

/-- A concrete named load request over the second filesystem. -/
def reqGB : TilesetLoadRequest :=
  { name := "g", dirs := [⟨"d2", "t2"⟩], max_columns := none }

/-- A concrete filesystem whose every directory lists three valid and two
malformed `ron` definition files. -/
def fiveFileFs : FileSys := fun _ =>
  some [{ path := "d/a.ron", ext := some "ron",
          parsed := ParseOutcome.ok ⟨1, "a.png"⟩ },
        { path := "d/x.ron", ext := some "ron",
          parsed := ParseOutcome.fail ⟨7, (1, 2)⟩ },
        { path := "d/b.ron", ext := some "ron",
          parsed := ParseOutcome.ok ⟨2, "b.png"⟩ },
        { path := "d/y.ron", ext := some "ron",
          parsed := ParseOutcome.fail ⟨9, (3, 4)⟩ },
        { path := "d/c.ron", ext := some "ron",
          parsed := ParseOutcome.ok ⟨3, "c.png"⟩ }]

/- Association-list map lemmas. -/

theorem getOr_setKey_self (m : Registry) (k : String)
    (v : TilesetGenerationRequest) : getOr (setKey m k v) k = v := by
  induction m with
  | nil => simp [setKey, getOr]
  | cons p rest ih =>
    obtain ⟨a, b⟩ := p
    by_cases h : a = k
    · simp [setKey, getOr, h]
    · simp [setKey, getOr, h, ih]

theorem getOr_setKey_other (m : Registry) (k k' : String)
    (v : TilesetGenerationRequest) (h : k' ≠ k) :
    getOr (setKey m k v) k' = getOr m k' := by
  have hs : k ≠ k' := Ne.symm h
  induction m with
  | nil => simp [setKey, getOr, hs]
  | cons p rest ih =>
    obtain ⟨a, b⟩ := p
    by_cases ha : a = k
    · subst ha
      simp [setKey, getOr, hs]
    · simp [setKey, getOr, ha, ih]

theorem mem_setKey (m : Registry) (k : String) (v : TilesetGenerationRequest)
    (p : String × TilesetGenerationRequest) (h : p ∈ setKey m k v) :
    p.1 = k ∨ p ∈ m := by
  induction m with
  | nil =>
    simp [setKey] at h
    exact Or.inl (by rw [h])
  | cons q rest ih =>
    obtain ⟨a, b⟩ := q
    by_cases ha : a = k
    · subst ha
      simp only [setKey, if_pos rfl] at h
      rcases List.mem_cons.mp h with h1 | h1
      · exact Or.inl (by rw [h1])
      · exact Or.inr (List.mem_cons_of_mem _ h1)
    · simp only [setKey, if_neg ha] at h
      rcases List.mem_cons.mp h with h1 | h1
      · exact Or.inr (h1 ▸ List.mem_cons_self _ _)
      · rcases ih h1 with h2 | h2
        · exact Or.inl h2
        · exact Or.inr (List.mem_cons_of_mem _ h2)

theorem setKey_mem_self (m : Registry) (k : String)
    (v : TilesetGenerationRequest) : (k, v) ∈ setKey m k v := by
  induction m with
  | nil => simp [setKey]
  | cons q rest ih =>
    obtain ⟨a, b⟩ := q
    by_cases ha : a = k
    · subst ha
      simp [setKey]
    · simp only [setKey, if_neg ha]
      exact List.mem_cons_of_mem _ ih

theorem mem_setKey_of_ne (m : Registry) (k k' : String)
    (v v' : TilesetGenerationRequest) (hmem : (k, v) ∈ m) (hne : k ≠ k') :
    (k, v) ∈ setKey m k' v' := by
  induction m with
  | nil => simp at hmem
  | cons q rest ih =>
    obtain ⟨a, b⟩ := q
    by_cases ha : a = k'
    · subst ha
      simp only [setKey, if_pos rfl]
      rcases List.mem_cons.mp hmem with h1 | h1
      · exact absurd (congrArg Prod.fst h1) hne
      · exact List.mem_cons_of_mem _ h1
    · simp only [setKey, if_neg ha]
      rcases List.mem_cons.mp hmem with h1 | h1
      · exact h1 ▸ List.mem_cons_self _ _
      · exact List.mem_cons_of_mem _ (ih h1)

theorem setKey_keys (m : Registry) (k : String) (v : TilesetGenerationRequest) :
    (setKey m k v).map Prod.fst =
      if k ∈ m.map Prod.fst then m.map Prod.fst else m.map Prod.fst ++ [k] := by
  induction m with
  | nil => simp [setKey]
  | cons q rest ih =>
    obtain ⟨a, b⟩ := q
    by_cases ha : a = k
    · subst ha
      simp [setKey]
    · have hk : k ≠ a := Ne.symm ha
      by_cases hmem : k ∈ rest.map Prod.fst
      · simp [setKey, ha, ih, hmem, hk]
      · simp [setKey, ha, ih, hmem, hk]

theorem setKey_keys_nodup (m : Registry) (k : String)
    (v : TilesetGenerationRequest) (h : (m.map Prod.fst).Nodup) :
    ((setKey m k v).map Prod.fst).Nodup := by
  rw [setKey_keys]
  by_cases hmem : k ∈ m.map Prod.fst
  · simpa [hmem] using h
  · simp only [hmem, if_neg, not_false_iff]
    exact List.Nodup.append h (List.nodup_singleton k)
      (by simpa [List.disjoint_singleton] using hmem)

theorem mem_unique_key (m : Registry) (k : String)
    (r1 r2 : TilesetGenerationRequest) (hn : (m.map Prod.fst).Nodup)
    (h1 : (k, r1) ∈ m) (h2 : (k, r2) ∈ m) : r1 = r2 := by
  induction m with
  | nil => simp at h1
  | cons q rest ih =>
    obtain ⟨a, b⟩ := q
    have hmap : (a :: rest.map Prod.fst).Nodup := by simpa using hn
    have hn' := List.nodup_cons.mp hmap
    rcases List.mem_cons.mp h1 with ha | ha
    · rcases List.mem_cons.mp h2 with hb | hb
      · rw [Prod.mk.injEq] at ha hb
        rw [ha.2, hb.2]
      · exfalso
        rw [Prod.mk.injEq] at ha
        exact hn'.1 (ha.1 ▸ List.mem_map.mpr ⟨(k, r2), hb, rfl⟩)
    · rcases List.mem_cons.mp h2 with hb | hb
      · exfalso
        rw [Prod.mk.injEq] at hb
        exact hn'.1 (hb.1 ▸ List.mem_map.mpr ⟨(k, r1), ha, rfl⟩)
      · exact ih hn'.2 ha hb

/- Lemmas about the inner per-file loop. -/

theorem processConfigFiles_len (tdir : String) (files : List FsFile)
    (req : TilesetGenerationRequest) :
    (processConfigFiles tdir files req).1.handles.handles.length
      = req.handles.handles.length
        + (files.filter (fun f => f.parsed.isOk)).length := by
  induction files generalizing req with
  | nil => simp [processConfigFiles]
  | cons f rest ih =>
    cases hf : f.parsed with
    | ok td =>
      simp [processConfigFiles, hf, ih, TilesetHandles.add_tile,
        ParseOutcome.isOk, Nat.add_assoc, Nat.add_comm 1]
    | fail e =>
      simp [processConfigFiles, hf, ih, ParseOutcome.isOk]

theorem processConfigFiles_dirty (tdir : String) (files : List FsFile)
    (req : TilesetGenerationRequest) :
    (processConfigFiles tdir files req).1.handles.is_dirty
      = req.handles.is_dirty := by
  induction files generalizing req with
  | nil => simp [processConfigFiles]
  | cons f rest ih =>
    cases hf : f.parsed with
    | ok td => simp [processConfigFiles, hf, ih, TilesetHandles.add_tile]
    | fail e => simp [processConfigFiles, hf, ih]

theorem processConfigFiles_max_columns (tdir : String) (files : List FsFile)
    (req : TilesetGenerationRequest) :
    (processConfigFiles tdir files req).1.max_columns = req.max_columns := by
  induction files generalizing req with
  | nil => simp [processConfigFiles]
  | cons f rest ih =>
    cases hf : f.parsed with
    | ok td => simp [processConfigFiles, hf, ih]
    | fail e => simp [processConfigFiles, hf, ih]

theorem processConfigFiles_diags (tdir : String) (files : List FsFile)
    (req : TilesetGenerationRequest) :
    (processConfigFiles tdir files req).2 = files.filterMap diagOf := by
  induction files generalizing req with
  | nil => simp [processConfigFiles]
  | cons f rest ih =>
    cases hf : f.parsed with
    | ok td => simp [processConfigFiles, diagOf, hf, ih]
    | fail e => simp [processConfigFiles, diagOf, hf, ih]

/- Lemmas about the outer per-directory loop. -/

theorem processDirs_max_columns (fs : FileSys) (dirs : List TilesetDirs)
    (req : TilesetGenerationRequest) :
    (processDirs fs dirs req).1.max_columns = req.max_columns := by
  induction dirs generalizing req with
  | nil => simp [processDirs]
  | cons d rest ih =>
    cases hd : fs d.tile_directory with
    | none => simp [processDirs, hd]
    | some files => simp [processDirs, hd, ih, processConfigFiles_max_columns]

theorem processDirs_dirty_mono (fs : FileSys) (dirs : List TilesetDirs)
    (req : TilesetGenerationRequest) (h : req.handles.is_dirty = true) :
    (processDirs fs dirs req).1.handles.is_dirty = true := by
  induction dirs generalizing req with
  | nil => simpa [processDirs] using h
  | cons d rest ih =>
    cases hd : fs d.tile_directory with
    | none => simpa [processDirs, hd] using h
    | some files => simp [processDirs, hd, ih]

theorem processDirs_dirty (fs : FileSys) (dirs : List TilesetDirs)
    (req : TilesetGenerationRequest) :
    (processDirs fs dirs req).1.handles.is_dirty
      = match dirs with
        | [] => req.handles.is_dirty
        | d :: _ =>
          if fs d.tile_directory = none then req.handles.is_dirty else true := by
  cases dirs with
  | nil => simp [processDirs]
  | cons d rest =>
    cases hd : fs d.tile_directory with
    | none => simp [processDirs, hd]
    | some files =>
      simp only [processDirs, hd]
      rw [processDirs_dirty_mono]
      · simp [hd]
      · rfl

theorem processDirs_readable (fs : FileSys) (dirs : List TilesetDirs)
    (req : TilesetGenerationRequest)
    (h : ∀ d ∈ dirs, fs d.tile_directory ≠ none) :
    (processDirs fs dirs req).2.2 = none ∧
    (processDirs fs dirs req).1.handles.handles.length
      = req.handles.handles.length + (dirs.map (dirParsedCount fs)).sum := by
  induction dirs generalizing req with
  | nil => simp [processDirs]
  | cons d rest ih =>
    cases hd : fs d.tile_directory with
    | none => exact absurd hd (h d (List.mem_cons_self _ _))
    | some files =>
      have ih' := ih
        { (processConfigFiles d.texture_directory (configFiles files) req).1 with
          handles := { (processConfigFiles d.texture_directory
            (configFiles files) req).1.handles with is_dirty := true } }
        (fun x hx => h x (List.mem_cons_of_mem _ hx))
      refine ⟨?_, ?_⟩
      · simpa [processDirs, hd] using ih'.1
      · simp only [processDirs, hd]
        rw [ih'.2]
        simp only [List.map_cons, List.sum_cons, dirParsedCount, hd]
        rw [processConfigFiles_len]
        ring

theorem processDirs_abort (fs : FileSys) (pre : List TilesetDirs)
    (d : TilesetDirs) (post : List TilesetDirs)
    (req : TilesetGenerationRequest)
    (hpre : ∀ p ∈ pre, fs p.tile_directory ≠ none)
    (hd : fs d.tile_directory = none) :
    processDirs fs (pre ++ d :: post) req =
      ((processDirs fs pre req).1, (processDirs fs pre req).2.1,
        some d.tile_directory) := by
  induction pre generalizing req with
  | nil => simp [processDirs, hd]
  | cons p rest ih =>
    cases hp : fs p.tile_directory with
    | none => exact absurd hp (hpre p (List.mem_cons_self _ _))
    | some files =>
      have ih' := fun rq => ih rq (fun x hx => hpre x (List.mem_cons_of_mem _ hx))
      simp [processDirs, hp, ih']

/- Lemmas about the build step. -/

theorem create_tileset_entry_empty (server : Server) (build : BuildOracle)
    (st : BuildState) (n : String) (r : TilesetGenerationRequest)
    (h : r.handles.len = 0) :
    create_tileset_entry server build st n r = (false, st) := by
  simp [create_tileset_entry, h]

theorem create_tileset_entry_clean (server : Server) (build : BuildOracle)
    (st : BuildState) (n : String) (r : TilesetGenerationRequest)
    (h1 : r.handles.len ≠ 0) (h2 : r.handles.is_dirty = false) :
    create_tileset_entry server build st n r = (false, st) := by
  simp [create_tileset_entry, h1, h2]

theorem create_tileset_entry_pending (server : Server) (build : BuildOracle)
    (st : BuildState) (n : String) (r : TilesetGenerationRequest)
    (h1 : r.handles.len ≠ 0) (h2 : r.handles.is_dirty = true)
    (h3 : r.handles.is_loaded server = false) :
    create_tileset_entry server build st n r = (true, st) := by
  simp [create_tileset_entry, h1, h2, h3]

theorem create_tileset_entry_keep_iff (server : Server) (build : BuildOracle)
    (st : BuildState) (n : String) (r : TilesetGenerationRequest) :
    (create_tileset_entry server build st n r).1 = true ↔
      (r.handles.len ≠ 0 ∧ r.handles.is_dirty = true ∧
        r.handles.is_loaded server = false) := by
  by_cases h1 : r.handles.len = 0
  · simp [create_tileset_entry, h1]
  · cases h2 : r.handles.is_dirty with
    | false => simp [create_tileset_entry, h1, h2]
    | true =>
      cases h3 : r.handles.is_loaded server with
      | false => simp [create_tileset_entry, h1, h2, h3]
      | true =>
        cases hb : build n r.handles with
        | false => simp [create_tileset_entry, h1, h2, h3, hb]
        | true => simp [create_tileset_entry, h1, h2, h3, hb]

theorem create_tileset_entry_events (server : Server) (build : BuildOracle)
    (st : BuildState) (n : String) (r : TilesetGenerationRequest) :
    ∀ e ∈ (create_tileset_entry server build st n r).2.events,
      e ∈ st.events ∨
        (e = n ∧ r.handles.len ≠ 0 ∧ r.handles.is_dirty = true ∧
          r.handles.is_loaded server = true ∧ build n r.handles = true) := by
  intro e he
  by_cases h1 : r.handles.len = 0
  · rw [create_tileset_entry_empty server build st n r h1] at he
    exact Or.inl he
  · cases h2 : r.handles.is_dirty with
    | false =>
      rw [create_tileset_entry_clean server build st n r h1 h2] at he
      exact Or.inl he
    | true =>
      cases h3 : r.handles.is_loaded server with
      | false =>
        rw [create_tileset_entry_pending server build st n r h1 h2 h3] at he
        exact Or.inl he
      | true =>
        cases hb : build n r.handles with
        | false =>
          simp only [create_tileset_entry, h1, h2, h3, hb] at he
          simp at he
          exact Or.inl (by simpa [h1] using he)
        | true =>
          simp only [create_tileset_entry, h1, h2, h3, hb] at he
          simp [h1] at he
          rcases he with he | he
          · exact Or.inl he
          · refine Or.inr ⟨he, h1, ?_, ?_, ?_⟩ <;> simp [h2, h3, hb]

theorem create_tileset_sublist (server : Server) (build : BuildOracle)
    (m : Registry) (st : BuildState) :
    (create_tileset server build m st).1.Sublist m := by
  induction m generalizing st with
  | nil => simp [create_tileset]
  | cons p rest ih =>
    obtain ⟨n, r⟩ := p
    simp only [create_tileset]
    by_cases hk : (create_tileset_entry server build st n r).1 = true
    · simpa [hk] using List.Sublist.cons₂ (n, r)
        (ih (create_tileset_entry server build st n r).2)
    · simp only [Bool.not_eq_true] at hk
      simpa [hk] using List.Sublist.cons (n, r)
        (ih (create_tileset_entry server build st n r).2)

theorem create_tileset_mem_kept (server : Server) (build : BuildOracle)
    (m : Registry) (st : BuildState) (n : String)
    (r : TilesetGenerationRequest) (hmem : (n, r) ∈ m)
    (h1 : r.handles.len ≠ 0) (h2 : r.handles.is_dirty = true)
    (h3 : r.handles.is_loaded server = false) :
    (n, r) ∈ (create_tileset server build m st).1 := by
  induction m generalizing st with
  | nil => simp at hmem
  | cons p rest ih =>
    obtain ⟨a, b⟩ := p
    simp only [create_tileset]
    rcases List.mem_cons.mp hmem with hh | hh
    · rw [Prod.mk.injEq] at hh
      obtain ⟨ha, hb⟩ := hh
      subst ha; subst hb
      rw [create_tileset_entry_pending server build st n r h1 h2 h3]
      simp
    · by_cases hk : (create_tileset_entry server build st a b).1 = true
      · simp only [hk, if_pos]
        exact List.mem_cons_of_mem _
          (ih (create_tileset_entry server build st a b).2 hh)
      · simp only [Bool.not_eq_true] at hk
        simp only [hk, Bool.false_eq_true, if_neg, not_false_iff]
        exact ih (create_tileset_entry server build st a b).2 hh

theorem create_tileset_events_mem (server : Server) (build : BuildOracle)
    (m : Registry) (st : BuildState) :
    ∀ e ∈ (create_tileset server build m st).2.events,
      e ∈ st.events ∨
        ∃ r, (e, r) ∈ m ∧ r.handles.len ≠ 0 ∧ r.handles.is_dirty = true ∧
          r.handles.is_loaded server = true ∧ build e r.handles = true := by
  induction m generalizing st with
  | nil => intro e he; exact Or.inl (by simpa [create_tileset] using he)
  | cons p rest ih =>
    obtain ⟨a, b⟩ := p
    intro e he
    simp only [create_tileset] at he
    have he2 : e ∈ (create_tileset server build rest
        (create_tileset_entry server build st a b).2).2.events := he
    rcases ih (create_tileset_entry server build st a b).2 e he2 with h | h
    · rcases create_tileset_entry_events server build st a b e h with h' | h'
      · exact Or.inl h'
      · exact Or.inr ⟨b, by simp [h'.1], h'.2.1, h'.2.2.1, h'.2.2.2.1,
          h'.1 ▸ h'.2.2.2.2⟩
    · obtain ⟨r, hr, hrest⟩ := h
      exact Or.inr ⟨r, List.mem_cons_of_mem _ hr, hrest⟩

/-- C1: one execution of the Build Step applies the decision rules to a
registry entry in order, first matching rule winning: a zero handle count
discards the entry with the state (events, tileset store) untouched;
otherwise a non-dirty entry is discarded with the state untouched;
otherwise a not-fully-loaded entry is kept with the state untouched;
otherwise the entry is built (a fresh tileset id is allocated) and
discarded. The entry is retained exactly when rule 3 (still pending)
fires, i.e. removed exactly when any other rule fires. -/
theorem build_step_rule_order (server : Server) (build : BuildOracle)
    (st : BuildState) (n : String) (r : TilesetGenerationRequest) :
    (r.handles.len = 0 →
      create_tileset_entry server build st n r = (false, st)) ∧
    (r.handles.len ≠ 0 → r.handles.is_dirty = false →
      create_tileset_entry server build st n r = (false, st)) ∧
    (r.handles.len ≠ 0 → r.handles.is_dirty = true →
        r.handles.is_loaded server = false →
      create_tileset_entry server build st n r = (true, st)) ∧
    (r.handles.len ≠ 0 → r.handles.is_dirty = true →
        r.handles.is_loaded server = true →
      (create_tileset_entry server build st n r).1 = false ∧
      (create_tileset_entry server build st n r).2.tilesets.counter
        = st.tilesets.counter + 1) ∧
    ((create_tileset_entry server build st n r).1 = true ↔
      r.handles.len ≠ 0 ∧ r.handles.is_dirty = true ∧
        r.handles.is_loaded server = false) := by
  refine ⟨fun h1 => create_tileset_entry_empty _ _ _ _ _ h1,
    fun h1 h2 => create_tileset_entry_clean _ _ _ _ _ h1 h2,
    fun h1 h2 h3 => create_tileset_entry_pending _ _ _ _ _ h1 h2 h3,
    fun h1 h2 h3 => ?_,
    create_tileset_entry_keep_iff _ _ _ _ _⟩
  cases hb : build n r.handles <;>
    simp [create_tileset_entry, h1, h2, h3, hb]

/-- Witness for C1: a dirty single-handle entry whose handle is not yet
loaded is retained with the state untouched. -/
theorem build_step_rule_order_witness :
    create_tileset_entry (fun _ => false) (fun _ _ => true) {} "grass"
      { handles := { handles := [("tiles/a.png", ⟨1, "a.png"⟩)], is_dirty := true },
        max_columns := none } = (true, {}) :=
  (build_step_rule_order (fun _ => false) (fun _ _ => true) {} "grass"
    { handles := { handles := [("tiles/a.png", ⟨1, "a.png"⟩)], is_dirty := true },
      max_columns := none }).2.2.1
    (by decide) (by decide) (by decide)

/-- C2: for a ready, dirty, non-empty entry the Build Step emits a
`LoadedTileset` event carrying the group name if and only if the builder
succeeds, and registers the finished tileset exactly in that case (one
event, one registration, at the freshly allocated id); on builder failure
nothing is emitted and nothing is registered; the entry is removed from
the registry either way. -/
theorem build_event_iff_success (server : Server) (build : BuildOracle)
    (st : BuildState) (n : String) (r : TilesetGenerationRequest)
    (h1 : r.handles.len ≠ 0) (h2 : r.handles.is_dirty = true)
    (h3 : r.handles.is_loaded server = true) :
    (create_tileset_entry server build st n r).1 = false ∧
    (build n r.handles = true →
      (create_tileset_entry server build st n r).2.events
        = st.events ++ [n] ∧
      (create_tileset_entry server build st n r).2.tilesets.registered
        = st.tilesets.registered ++ [(st.tilesets.counter, n)]) ∧
    (build n r.handles = false →
      (create_tileset_entry server build st n r).2.events = st.events ∧
      (create_tileset_entry server build st n r).2.tilesets.registered
        = st.tilesets.registered) := by
  refine ⟨?_, fun hb => ?_, fun hb => ?_⟩
  · cases hb : build n r.handles <;>
      simp [create_tileset_entry, h1, h2, h3, hb]
  · simp [create_tileset_entry, h1, h2, h3, hb]
  · simp [create_tileset_entry, h1, h2, h3, hb]

/-- Witness for C2: on a concrete loaded dirty entry, a succeeding builder
emits exactly one event and a failing builder emits none. -/
theorem build_event_iff_success_witness :
    ((create_tileset_entry (fun _ => true) (fun _ _ => true) {} "g"
      { handles := { handles := [("p", ⟨1, "t"⟩)], is_dirty := true },
            max_columns := none }).2.events
      = ({} : BuildState).events ++ ["g"]) ∧
    ((create_tileset_entry (fun _ => true) (fun _ _ => false) {} "g"
      { handles := { handles := [("p", ⟨1, "t"⟩)], is_dirty := true },
            max_columns := none }).2.events = ({} : BuildState).events) :=
  ⟨((build_event_iff_success (fun _ => true) (fun _ _ => true) {} "g"
      { handles := { handles := [("p", ⟨1, "t"⟩)], is_dirty := true },
            max_columns := none }
      (by decide) (by decide) (by decide)).2.1 (by decide)).1,
   ((build_event_iff_success (fun _ => true) (fun _ _ => false) {} "g"
      { handles := { handles := [("p", ⟨1, "t"⟩)], is_dirty := true },
            max_columns := none }
      (by decide) (by decide) (by decide)).2.2 (by decide)).1⟩

/-- C9: the Build Step never inserts a new entry into the Request Registry
and never mutates an entry it retains: the registry after the step is a
sublist of the registry before it (every retained entry is an entry of the
input, byte for byte, handles, dirty flag and max_columns included). -/
theorem build_step_no_insert (server : Server) (build : BuildOracle)
    (m : Registry) (st : BuildState) :
    (create_tileset server build m st).1.Sublist m ∧
    ∀ p ∈ (create_tileset server build m st).1, p ∈ m :=
  ⟨create_tileset_sublist server build m st,
   fun _ hp => (create_tileset_sublist server build m st).subset hp⟩

/-- Counterexample for C3: a Load Request whose first directory pair is
readable (one valid definition file) and whose second pair is missing
aborts on the second pair, yet a handle issued on behalf of this very
request is left in the group's Pending Handle Set at the abort point —
the abort is not "before any texture handle is created for that
request". -/
theorem ingest_abort_after_handles :
    ((load_tiles
        (fun d => if d = "good"
          then some [{ path := "good/a.ron", ext := some "ron",
                       parsed := ParseOutcome.ok ⟨1, "a.png"⟩ }]
          else none)
        "u" { name := "g", dirs := [⟨"good", "tex"⟩, ⟨"bad", "tex"⟩],
              max_columns := none } []).aborted = some "bad") ∧
    ((getOr (load_tiles
        (fun d => if d = "good"
          then some [{ path := "good/a.ron", ext := some "ron",
                       parsed := ParseOutcome.ok ⟨1, "a.png"⟩ }]
          else none)
        "u" { name := "g", dirs := [⟨"good", "tex"⟩, ⟨"bad", "tex"⟩],
              max_columns := none } []).registry "g").handles.len = 1) := by
  decide

/-- C3 (amended): a missing or unreadable tile-config directory aborts the
Load Request at the first unreadable pair: the pass stops there, no
handle from the failing pair or any later pair is created, and the state
left behind (registry and diagnostics) is exactly the state a request
containing only the preceding pairs would have produced — which includes
the entry creation, the max_columns overwrite and any handles already
added from earlier pairs of the same request. -/
theorem ingest_abort_prefix_semantics (fs : FileSys) (fresh : String)
    (loader : TilesetLoadRequest) (m : Registry) (pre : List TilesetDirs)
    (d : TilesetDirs) (post : List TilesetDirs)
    (hdirs : loader.dirs = pre ++ d :: post)
    (hpre : ∀ p ∈ pre, fs p.tile_directory ≠ none)
    (hd : fs d.tile_directory = none) :
    (load_tiles fs fresh loader m).aborted = some d.tile_directory ∧
    (load_tiles fs fresh loader m).registry
      = (load_tiles fs fresh { loader with dirs := pre } m).registry ∧
    (load_tiles fs fresh loader m).diags
      = (load_tiles fs fresh { loader with dirs := pre } m).diags := by
  have h := processDirs_abort fs pre d post
    { getOr m (if loader.name = "" then fresh else loader.name) with
      max_columns := loader.max_columns } hpre hd
  refine ⟨?_, ?_, ?_⟩ <;> simp [load_tiles, hdirs, h]

/-- Witness for C3 (amended): on the concrete two-pair request of the
counterexample, the abort names the second pair and the persisted state
matches the one-pair request's state. -/
theorem ingest_abort_prefix_semantics_witness :
    ((load_tiles
        (fun d => if d = "good"
          then some [{ path := "good/a.ron", ext := some "ron",
                       parsed := ParseOutcome.ok ⟨1, "a.png"⟩ }]
          else none)
        "u" { name := "g", dirs := [⟨"good", "tex"⟩, ⟨"bad", "tex"⟩],
              max_columns := none } []).aborted = some "bad") ∧
    ((load_tiles
        (fun d => if d = "good"
          then some [{ path := "good/a.ron", ext := some "ron",
                       parsed := ParseOutcome.ok ⟨1, "a.png"⟩ }]
          else none)
        "u" { name := "g", dirs := [⟨"good", "tex"⟩, ⟨"bad", "tex"⟩],
              max_columns := none } []).registry
      = (load_tiles
          (fun d => if d = "good"
            then some [{ path := "good/a.ron", ext := some "ron",
                         parsed := ParseOutcome.ok ⟨1, "a.png"⟩ }]
            else none)
          "u" { name := "g", dirs := [⟨"good", "tex"⟩],
                max_columns := none } []).registry) :=
  ⟨(ingest_abort_prefix_semantics
      (fun d => if d = "good"
        then some [{ path := "good/a.ron", ext := some "ron",
                     parsed := ParseOutcome.ok ⟨1, "a.png"⟩ }]
        else none)
      "u" { name := "g", dirs := [⟨"good", "tex"⟩, ⟨"bad", "tex"⟩],
            max_columns := none } [] [⟨"good", "tex"⟩] ⟨"bad", "tex"⟩ []
      (by decide) (by decide) (by decide)).1,
   (ingest_abort_prefix_semantics
      (fun d => if d = "good"
        then some [{ path := "good/a.ron", ext := some "ron",
                     parsed := ParseOutcome.ok ⟨1, "a.png"⟩ }]
        else none)
      "u" { name := "g", dirs := [⟨"good", "tex"⟩, ⟨"bad", "tex"⟩],
            max_columns := none } [] [⟨"good", "tex"⟩] ⟨"bad", "tex"⟩ []
      (by decide) (by decide) (by decide)).2.1⟩

/-- Counterexample for C4: an ingestion pass over a readable directory
that contains no parseable definition files adds no handle, yet leaves
the set dirty — `is_dirty` is set unconditionally after each directory
pair, so it is not equivalent to "at least one handle was added". -/
theorem dirty_without_adds :
    ((getOr (load_tiles (fun d => if d = "empty" then some [] else none)
        "u" { name := "g", dirs := [⟨"empty", "tex"⟩], max_columns := none }
        []).registry "g").handles.len = 0) ∧
    ((getOr (load_tiles (fun d => if d = "empty" then some [] else none)
        "u" { name := "g", dirs := [⟨"empty", "tex"⟩], max_columns := none }
        []).registry "g").handles.is_dirty = true) := by
  decide

/-- C4 (amended): after an ingestion pass, the group's `is_dirty` flag is
true exactly when it was already true or the pass fully processed at
least one directory pair (its first pair was readable) — independently of
whether any handle was added; a pass with an empty directory list, or one
that aborts on its first pair, leaves the flag unchanged. -/
theorem dirty_flag_semantics (fs : FileSys) (fresh : String)
    (loader : TilesetLoadRequest) (m : Registry) :
    (getOr (load_tiles fs fresh loader m).registry
        (if loader.name = "" then fresh else loader.name)).handles.is_dirty
      = match loader.dirs with
        | [] => (getOr m
            (if loader.name = "" then fresh else loader.name)).handles.is_dirty
        | d :: _ =>
          if fs d.tile_directory = none
          then (getOr m
            (if loader.name = "" then fresh else loader.name)).handles.is_dirty
          else true := by
  simp only [load_tiles]
  rw [getOr_setKey_self, processDirs_dirty]

/-- Counterexample for C8: a Load Request whose directory list is empty
does not set `is_dirty` — the flag is only set inside the per-pair loop,
which never runs — while `max_columns` is still overwritten; the claim
that dirty is set "including a request whose directory list is empty" is
false. -/
theorem empty_dirs_not_dirty :
    ((getOr (load_tiles (fun _ => none) "u"
        { name := "g", dirs := [], max_columns := some 4 } []).registry
        "g").handles.is_dirty = false) ∧
    ((getOr (load_tiles (fun _ => none) "u"
        { name := "g", dirs := [], max_columns := some 4 } []).registry
        "g").max_columns = some 4) := by
  decide

/-- C8 (amended): every ingestion pass overwrites the group's
`max_columns` with the request's value (last write wins across successive
requests for the same key, empty directory lists included), and the pass
sets `is_dirty` to true provided the request has at least one directory
pair and its first pair is readable; a request with an empty directory
list leaves `is_dirty` unchanged. -/
theorem request_finalization (fs : FileSys) (fresh : String)
    (loader : TilesetLoadRequest) (m : Registry) :
    ((getOr (load_tiles fs fresh loader m).registry
        (if loader.name = "" then fresh else loader.name)).max_columns
      = loader.max_columns) ∧
    (∀ d rest, loader.dirs = d :: rest → fs d.tile_directory ≠ none →
      (getOr (load_tiles fs fresh loader m).registry
        (if loader.name = "" then fresh else loader.name)).handles.is_dirty
        = true) ∧
    (∀ (fs2 : FileSys) (fresh2 : String) (loader2 : TilesetLoadRequest),
      (if loader2.name = "" then fresh2 else loader2.name)
          = (if loader.name = "" then fresh else loader.name) →
      (getOr (load_tiles fs2 fresh2 loader2
          (load_tiles fs fresh loader m).registry).registry
        (if loader.name = "" then fresh else loader.name)).max_columns
        = loader2.max_columns) := by
  refine ⟨?_, fun d rest hdirs hd => ?_, fun fs2 fresh2 loader2 hkey => ?_⟩
  · simp only [load_tiles]
    rw [getOr_setKey_self, processDirs_max_columns]
  · simp only [load_tiles]
    rw [getOr_setKey_self, processDirs_dirty, hdirs]
    simp [hd]
  · simp only [load_tiles]
    rw [← hkey, getOr_setKey_self, processDirs_max_columns]

/-- Witness for C8 (amended): a concrete request with one readable pair
sets the flag and stores its `max_columns`. -/
theorem request_finalization_witness :
    (getOr (load_tiles (fun _ => some []) "u"
        { name := "g", dirs := [⟨"d", "t"⟩], max_columns := some 2 }
        []).registry "g").handles.is_dirty = true :=
  (request_finalization (fun _ => some []) "u"
      { name := "g", dirs := [⟨"d", "t"⟩], max_columns := some 2 } []).2.1
    ⟨"d", "t"⟩ [] rfl (by decide)

/-- The handle count added by one completed ingestion pass: with every
directory of the request readable, the pass adds exactly the number of
successfully parsed definitions of the request's directories. -/
theorem load_tiles_len (fs : FileSys) (fresh : String)
    (loader : TilesetLoadRequest) (m : Registry)
    (hr : ∀ d ∈ loader.dirs, fs d.tile_directory ≠ none) :
    (getOr (load_tiles fs fresh loader m).registry
        (if loader.name = "" then fresh else loader.name)).handles.len
      = (getOr m (if loader.name = "" then fresh else loader.name)).handles.len
        + (loader.dirs.map (dirParsedCount fs)).sum := by
  simp only [load_tiles]
  rw [getOr_setKey_self]
  have h := (processDirs_readable fs loader.dirs
    { getOr m (if loader.name = "" then fresh else loader.name) with
      max_columns := loader.max_columns } hr).2
  simpa [TilesetHandles.len] using h

/-- C5: two Load Requests carrying the same non-empty group name, both
ingested before the group is built, accumulate into a single Pending
Handle Set under that name: the final handle count is the prior count
plus the successfully parsed definitions of both requests, and the
registry's key set stays duplicate-free, so the name maps to one entry,
never two. -/
theorem merge_same_name_requests (fs1 fs2 : FileSys) (f1 f2 nm : String)
    (l1 l2 : TilesetLoadRequest) (m : Registry)
    (hn : nm ≠ "") (h1 : l1.name = nm) (h2 : l2.name = nm)
    (hr1 : ∀ d ∈ l1.dirs, fs1 d.tile_directory ≠ none)
    (hr2 : ∀ d ∈ l2.dirs, fs2 d.tile_directory ≠ none) :
    ((getOr (load_tiles fs2 f2 l2
        (load_tiles fs1 f1 l1 m).registry).registry nm).handles.len
      = (getOr m nm).handles.len
        + (l1.dirs.map (dirParsedCount fs1)).sum
        + (l2.dirs.map (dirParsedCount fs2)).sum) ∧
    ((m.map Prod.fst).Nodup →
      (((load_tiles fs2 f2 l2
        (load_tiles fs1 f1 l1 m).registry).registry).map Prod.fst).Nodup) := by
  have k1 : (if l1.name = "" then f1 else l1.name) = nm := by
    rw [h1]; exact if_neg hn
  have k2 : (if l2.name = "" then f2 else l2.name) = nm := by
    rw [h2]; exact if_neg hn
  constructor
  · have e2 := load_tiles_len fs2 f2 l2 (load_tiles fs1 f1 l1 m).registry hr2
    have e1 := load_tiles_len fs1 f1 l1 m hr1
    rw [k2] at e2
    rw [k1] at e1
    rw [e2, e1]
  · intro hnd
    have s1 : ((load_tiles fs1 f1 l1 m).registry.map Prod.fst).Nodup := by
      simp only [load_tiles]
      exact setKey_keys_nodup _ _ _ hnd
    simp only [load_tiles]
    exact setKey_keys_nodup _ _ _ s1

/-- Witness for C5: two one-directory requests for the name g, one valid
definition file each, leave the g entry holding the sum of both counts. -/
theorem merge_same_name_requests_witness :
    (getOr (load_tiles fsOneB "u2" reqGB
        (load_tiles fsOneA "u1" reqGA []).registry).registry "g").handles.len
      = (getOr ([] : Registry) "g").handles.len
        + (reqGA.dirs.map (dirParsedCount fsOneA)).sum
        + (reqGB.dirs.map (dirParsedCount fsOneB)).sum :=
  (merge_same_name_requests fsOneA fsOneB "u1" "u2" "g" reqGA reqGB []
    (by decide) rfl rfl (by decide) (by decide)).1

/-- C6: a registry entry holding handles of which at least one is not yet
load-complete is never built by the Build Step: `is_loaded` reports
false, the entry is kept with the state untouched, the entry persists
unchanged in the registry after the tick (so it is re-checked next tick),
and — when registry keys are duplicate-free — no `LoadedTileset` event
for its name is emitted this tick. -/
theorem no_premature_build (server : Server) (build : BuildOracle)
    (m : Registry) (st : BuildState) (n : String)
    (r : TilesetGenerationRequest) (hmem : (n, r) ∈ m)
    (hlen : r.handles.len ≠ 0) (hdirty : r.handles.is_dirty = true)
    (hpend : ∃ p ∈ r.handles.handles, server p.1 = false) :
    r.handles.is_loaded server = false ∧
    create_tileset_entry server build st n r = (true, st) ∧
    (n, r) ∈ (create_tileset server build m st).1 ∧
    ((m.map Prod.fst).Nodup →
      ∀ e ∈ (create_tileset server build m st).2.events,
        e ∈ st.events ∨ e ≠ n) := by
  obtain ⟨p, hp, hps⟩ := hpend
  have hload : r.handles.is_loaded server = false := by
    cases hl : r.handles.is_loaded server with
    | false => rfl
    | true =>
      exfalso
      simp only [TilesetHandles.is_loaded] at hl
      have := List.all_eq_true.mp hl p hp
      rw [hps] at this
      exact Bool.false_ne_true this
  refine ⟨hload,
    create_tileset_entry_pending server build st n r hlen hdirty hload,
    create_tileset_mem_kept server build m st n r hmem hlen hdirty hload,
    fun hnd e he => ?_⟩
  rcases create_tileset_events_mem server build m st e he with h | h
  · exact Or.inl h
  · obtain ⟨r2, hr2, _, _, hloaded2, _⟩ := h
    by_cases hen : e = n
    · exfalso
      subst hen
      have heq : r2 = r := mem_unique_key m e r2 r hnd hr2 hmem
      rw [heq, hload] at hloaded2
      exact Bool.false_ne_true hloaded2
    · exact Or.inr hen

/-- Witness for C6: a single-entry registry whose only handle is still
pending survives the tick unchanged and is not built. -/
theorem no_premature_build_witness :
    ((create_tileset (fun _ => false) (fun _ _ => true)
        [("g", { handles := { handles := [("p", ⟨1, "t"⟩)], is_dirty := true },
                 max_columns := none })] {}).1.Mem
      ("g", { handles := { handles := [("p", ⟨1, "t"⟩)], is_dirty := true },
              max_columns := none })) :=
  (no_premature_build (fun _ => false) (fun _ _ => true)
    [("g", { handles := { handles := [("p", ⟨1, "t"⟩)], is_dirty := true },
             max_columns := none })] {} "g"
    { handles := { handles := [("p", ⟨1, "t"⟩)], is_dirty := true },
      max_columns := none }
    (by decide) (by decide) (by decide) (by decide)).2.2.1

/-- C7: a definition file that fails to parse is non-fatal to the batch:
ingestion over a file list adds one handle per successfully parsed file
(so the handle count grows by exactly the number of valid files) and
reports, in file order, one diagnostic per malformed file carrying its
path, error code and error position; in particular 3 valid and 2
malformed files yield exactly 3 handles and 2 diagnostics. -/
theorem parse_failure_isolation (tdir : String) (files : List FsFile)
    (req : TilesetGenerationRequest) :
    ((processConfigFiles tdir files req).1.handles.handles.length
      = req.handles.handles.length
        + (files.filter (fun f => f.parsed.isOk)).length) ∧
    ((processConfigFiles tdir files req).2 = files.filterMap diagOf) ∧
    ((getOr (load_tiles fiveFileFs "u"
        { name := "g", dirs := [⟨"d", "t"⟩], max_columns := none }
        []).registry "g").handles.len = 3 ∧
      (load_tiles fiveFileFs "u"
        { name := "g", dirs := [⟨"d", "t"⟩], max_columns := none }
        []).diags
        = [⟨"d/x.ron", 7, (1, 2)⟩, ⟨"d/y.ron", 9, (3, 4)⟩]) :=
  ⟨processConfigFiles_len tdir files req,
   processConfigFiles_diags tdir files req,
   by decide⟩

/-- The registry produced by one ingestion pass, written out: the entry
under the request's key (the fresh unique name when the request name is
empty) is stored with the processed directories folded in. -/
theorem load_tiles_registry_eq (fs : FileSys) (fresh : String)
    (loader : TilesetLoadRequest) (m : Registry) :
    (load_tiles fs fresh loader m).registry
      = setKey m (if loader.name = "" then fresh else loader.name)
          (processDirs fs loader.dirs
            { getOr m (if loader.name = "" then fresh else loader.name) with
              max_columns := loader.max_columns }).1 := rfl

/-- C10: a Load Request whose name is the empty string is keyed by the
freshly generated unique identifier instead: given the generator returns
non-empty, distinct values, two empty-named requests write under two
distinct keys — both present afterwards, so they never merge into one
Pending Handle Set — and no registry entry is ever keyed by the empty
string. -/
theorem unnamed_requests_unique_keys (fs1 fs2 : FileSys) (f1 f2 : String)
    (l1 l2 : TilesetLoadRequest) (m : Registry)
    (h1 : l1.name = "") (h2 : l2.name = "")
    (hf1 : f1 ≠ "") (hf2 : f2 ≠ "") (hne : f1 ≠ f2)
    (hm : ∀ p ∈ m, p.1 ≠ "") :
    (∀ p ∈ (load_tiles fs2 f2 l2 (load_tiles fs1 f1 l1 m).registry).registry,
      p.1 ≠ "") ∧
    (∃ v, (f1, v) ∈ (load_tiles fs2 f2 l2
        (load_tiles fs1 f1 l1 m).registry).registry) ∧
    (∃ v, (f2, v) ∈ (load_tiles fs2 f2 l2
        (load_tiles fs1 f1 l1 m).registry).registry) := by
  have hk1 : (if l1.name = "" then f1 else l1.name) = f1 := by
    rw [h1]; simp
  have hk2 : (if l2.name = "" then f2 else l2.name) = f2 := by
    rw [h2]; simp
  have r1eq := load_tiles_registry_eq fs1 f1 l1 m
  rw [hk1] at r1eq
  have r2eq := load_tiles_registry_eq fs2 f2 l2 (load_tiles fs1 f1 l1 m).registry
  rw [hk2] at r2eq
  have hall1 : ∀ p ∈ (load_tiles fs1 f1 l1 m).registry, p.1 ≠ "" := by
    intro p hp
    rw [r1eq] at hp
    rcases mem_setKey _ _ _ p hp with h | h
    · rw [h]; exact hf1
    · exact hm p h
  refine ⟨?_, ?_, ?_⟩
  · intro p hp
    rw [r2eq] at hp
    rcases mem_setKey _ _ _ p hp with h | h
    · rw [h]; exact hf2
    · exact hall1 p h
  · have hmem1 : (f1, (processDirs fs1 l1.dirs
        { getOr m f1 with max_columns := l1.max_columns }).1)
        ∈ (load_tiles fs1 f1 l1 m).registry := by
      rw [r1eq]; exact setKey_mem_self m f1 _
    exact ⟨(processDirs fs1 l1.dirs
        { getOr m f1 with max_columns := l1.max_columns }).1,
      by rw [r2eq]; exact mem_setKey_of_ne _ _ _ _ _ hmem1 hne⟩
  · exact ⟨(processDirs fs2 l2.dirs
        { getOr (load_tiles fs1 f1 l1 m).registry f2 with
          max_columns := l2.max_columns }).1,
      by rw [r2eq]; exact setKey_mem_self _ f2 _⟩

/-- Witness for C10: two concrete empty-named requests under distinct
fresh identifiers leave a registry with both identifier keys and no
empty-string key. -/
theorem unnamed_requests_unique_keys_witness :
    (∀ p ∈ (load_tiles (fun _ => none) "u2"
        { name := "", dirs := [], max_columns := none }
        (load_tiles (fun _ => none) "u1"
          { name := "", dirs := [], max_columns := none } []).registry).registry,
      p.1 ≠ "") ∧
    (∃ v, ("u1", v) ∈ (load_tiles (fun _ => none) "u2"
        { name := "", dirs := [], max_columns := none }
        (load_tiles (fun _ => none) "u1"
          { name := "", dirs := [], max_columns := none } []).registry).registry) ∧
    (∃ v, ("u2", v) ∈ (load_tiles (fun _ => none) "u2"
        { name := "", dirs := [], max_columns := none }
        (load_tiles (fun _ => none) "u1"
          { name := "", dirs := [], max_columns := none } []).registry).registry) :=
  unnamed_requests_unique_keys (fun _ => none) (fun _ => none) "u1" "u2"
    { name := "", dirs := [], max_columns := none }
    { name := "", dirs := [], max_columns := none } []
    rfl rfl (by decide) (by decide) (by decide) (by decide)

end BevyTileset
